import Mathlib

/-!
Verification of the phone-label converter `ipa_to_arpabet.py`.

Strings are modelled as `List Char` (one element per Unicode code point,
matching Python's `str`).  Python's `str.lower` / `str.upper` are modelled
character-wise over the character repertoire that the program manipulates:
ASCII letters plus the IPA letters appearing in the mapping table (identity
on every other character).  `str.strip` is modelled over ASCII whitespace.
-/

set_option maxRecDepth 8192

namespace IpaArpa

/-- Convert a Lean string literal to the `List Char` string model. -/
def cs (s : String) : List Char := s.toList

/-- Whitespace characters removed by Python `str.strip`. -/
def isSpaceChar (c : Char) : Bool :=
  c == ' ' || c == '\t' || c == '\n' || c == '\r' || c == '\x0b' || c == '\x0c'

/-- Python `str.strip`: drop leading and trailing whitespace. -/
def pyStrip (s : List Char) : List Char :=
  ((s.dropWhile isSpaceChar).reverse.dropWhile isSpaceChar).reverse

/-- (lowercase, uppercase) pairs modelling Python case mapping: ASCII
letters, the IPA letters of the mapping table that have a Unicode case
partner, and the two non-ASCII characters whose Python uppercase is a
single A-Z letter — dotless ı (U+0131, upper I) and long s ſ (U+017F,
upper S).  These two are exactly the single-character mappings into A-Z
beyond a-z, so every string whose Python uppercase spells SIL or SPN is
represented exactly (the length-changing expansions ß→SS and the ﬀ/ﬁ/…
ligatures cannot take part in such a spelling and are modelled as
identity).  `pyLowerChar` resolves a shared uppercase to its first listed
lowercase, matching Python (I.lower() = i, S.lower() = s). -/
def casePairs : List (Char × Char) :=
  [('a', 'A'), ('b', 'B'), ('c', 'C'), ('d', 'D'), ('e', 'E'), ('f', 'F'),
   ('g', 'G'), ('h', 'H'), ('i', 'I'), ('j', 'J'), ('k', 'K'), ('l', 'L'),
   ('m', 'M'), ('n', 'N'), ('o', 'O'), ('p', 'P'), ('q', 'Q'), ('r', 'R'),
   ('s', 'S'), ('t', 'T'), ('u', 'U'), ('v', 'V'), ('w', 'W'), ('x', 'X'),
   ('y', 'Y'), ('z', 'Z'),
   ('ɑ', 'Ɑ'), ('æ', 'Æ'), ('ʌ', 'Ʌ'),
   ('ə', 'Ə'), ('ɔ', 'Ɔ'), ('ɪ', 'Ɪ'),
   ('ʊ', 'Ʊ'), ('ɜ', 'Ɜ'), ('ð', 'Ð'),
   ('ɛ', 'Ɛ'), ('ɡ', 'Ɡ'), ('ŋ', 'Ŋ'),
   ('ʃ', 'Ʃ'), ('θ', 'Θ'), ('ʒ', 'Ʒ'),
   ('ı', 'I'), ('ſ', 'S')]

/-- Python `str.upper`, one character. -/
def pyUpperChar (c : Char) : Char :=
  match casePairs.find? (fun q => q.1 == c) with
  | some q => q.2
  | none => c

/-- Python `str.lower`, one character. -/
def pyLowerChar (c : Char) : Char :=
  match casePairs.find? (fun q => q.2 == c) with
  | some q => q.1
  | none => c

/-- Python `str.upper`. -/
def pyUpper (s : List Char) : List Char := s.map pyUpperChar

/-- Python `str.lower`. -/
def pyLower (s : List Char) : List Char := s.map pyLowerChar

/-- Character class `[A-Z]`. -/
def isUpperAZ (c : Char) : Bool := decide ('A' ≤ c) && decide (c ≤ 'Z')

/-- Character class `[a-zA-Z]` (an ASCII letter). -/
def isAsciiLetter (c : Char) : Bool :=
  (decide ('a' ≤ c) && decide (c ≤ 'z')) || (decide ('A' ≤ c) && decide (c ≤ 'Z'))

/-- Character class `[0-2]`. -/
def isStressDigit (c : Char) : Bool := c == '0' || c == '1' || c == '2'

/-- What may follow the leading run of `[A-Z]` letters in the ARPABET
regex: nothing, or a single stress digit. -/
def tailOk (rest : List Char) : Bool :=
  match rest with
  | [] => true
  | [c] => isStressDigit c
  | _ => false

/-- The anchored regex of src line 120: one to three uppercase letters
followed by an optional stress digit.  Since the letter and digit classes
are disjoint, a match is equivalent to: the maximal `[A-Z]` run has length
1 to 3 and the remainder is empty or one digit `0|1|2`. -/
def arpabetRe (s : List Char) : Bool :=
  decide (1 ≤ (s.takeWhile isUpperAZ).length) &&
  decide ((s.takeWhile isUpperAZ).length ≤ 3) &&
  tailOk (s.dropWhile isUpperAZ)

/-- src lines 123-125: `_looks_like_arpabet`. -/
def looksLikeArpabet (s : List Char) : Bool :=
  pyUpper (pyStrip s) == cs "SPN" || arpabetRe (pyUpper (pyStrip s))

/-- src lines 29-45: `VOWEL_BASES`. -/
def VOWEL_BASES : List (List Char) :=
  [cs "AA", cs "AE", cs "AH", cs "AO", cs "AW", cs "AY", cs "EH", cs "ER",
   cs "EY", cs "IH", cs "IY", cs "OW", cs "OY", cs "UH", cs "UW"]

/-- src lines 49-117: the `IPA_TO_ARPABET` dict, in source order (keys are
pairwise distinct, so an association list looked up front-to-back models
the Python dict exactly). -/
def IPA_TO_ARPABET : List (List Char × List Char) :=
  [(cs "ɑ", cs "AA"), (cs "æ", cs "AE"), (cs "ʌ", cs "AH"),
   (cs "ə", cs "AH0"), (cs "ɔ", cs "AO"),
   (cs "aɪ", cs "AY"), (cs "aʊ", cs "AW"), (cs "eɪ", cs "EY"),
   (cs "oʊ", cs "OW"), (cs "ɔɪ", cs "OY"),
   (cs "aj", cs "AY"), (cs "aw", cs "AW"), (cs "ej", cs "EY"),
   (cs "ow", cs "OW"), (cs "ɔj", cs "OY"),
   (cs "ɜr", cs "ER"), (cs "ər", cs "ER0"),
   (cs "ɝ", cs "ER"), (cs "ɚ", cs "ER0"),
   (cs "ɪ", cs "IH"), (cs "i", cs "IY"), (cs "ʊ", cs "UH"),
   (cs "u", cs "UW"),
   (cs "b", cs "B"), (cs "tʃ", cs "CH"), (cs "d", cs "D"),
   (cs "ð", cs "DH"), (cs "ɛ", cs "EH"), (cs "f", cs "F"),
   (cs "ɡ", cs "G"), (cs "g", cs "G"), (cs "h", cs "HH"),
   (cs "dʒ", cs "JH"), (cs "k", cs "K"), (cs "l", cs "L"),
   (cs "m", cs "M"), (cs "n", cs "N"), (cs "ŋ", cs "NG"),
   (cs "p", cs "P"), (cs "r", cs "R"), (cs "ɹ", cs "R"),
   (cs "s", cs "S"), (cs "ʃ", cs "SH"), (cs "t", cs "T"),
   (cs "θ", cs "TH"), (cs "v", cs "V"), (cs "w", cs "W"),
   (cs "j", cs "Y"), (cs "z", cs "Z"), (cs "ʒ", cs "ZH"),
   (cs "spn", cs "spn"), (cs "sil", cs "sil")]

/-- `IPA_TO_ARPABET.get(k)`. -/
def tableGet (k : List Char) : Option (List Char) :=
  (IPA_TO_ARPABET.find? (fun q => q.1 == k)).map (fun q => q.2)

/-- src lines 159-162: exact lookup, then lowercase fallback. -/
def lookupBase (p : List Char) : Option (List Char) :=
  match tableGet p with
  | some b => some b
  | none => tableGet (pyLower p)

/-- `s.endswith(("0", "1", "2"))`. -/
def endsInStress (s : List Char) : Bool :=
  match s.getLast? with
  | some c => isStressDigit c
  | none => false

/-- src lines 168-178: stress handling applied to a value found in the
mapping table (`base.upper()` explicit-stress check, then default stress
on vowel bases). -/
def applyStress (base : List Char) (default_stress : Option Int) : List Char :=
  if endsInStress (pyUpper base) then pyUpper base
  else if pyUpper base ∈ VOWEL_BASES then
    match default_stress with
    | some d => pyUpper base ++ cs (toString d)
    | none => pyUpper base
  else pyUpper base

/-- src lines 128-178: `ipa_phone_to_arpabet`.  `p := phone.strip()` is
written out as `pyStrip phone`; the `p_norm = p` normalisation of the
source is the identity and is inlined. -/
def ipa_phone_to_arpabet (phone : List Char) (default_stress : Option Int) :
    List Char :=
  if pyStrip phone = [] then phone
  else if pyLower (pyStrip phone) = cs "spn" ∨ pyLower (pyStrip phone) = cs "sil" then
    pyLower (pyStrip phone)
  else if looksLikeArpabet (pyStrip phone) then
    (if pyUpper (pyStrip phone) = cs "SPN" then cs "spn" else pyUpper (pyStrip phone))
  else
    match lookupBase (pyStrip phone) with
    | none => pyStrip phone
    | some base => applyStress base default_stress

/-- The stress policies the command line can produce (src lines 311-319):
`none` or a digit 0, 1, 2. -/
def validStress (s : Option Int) : Prop :=
  s = none ∨ s = some 0 ∨ s = some 1 ∨ s = some 2

/-- `validStress` as a list, for decidable quantification. -/
def stressOptions : List (Option Int) := [none, some 0, some 1, some 2]

/-! ### CLI stress-policy validation (src lines 311-319) -/

/-- Character class `[0-9]`. -/
def isAsciiDigit (c : Char) : Bool := decide ('0' ≤ c) && decide (c ≤ '9')

/-- Numeric value of an ASCII digit. -/
def digitVal (c : Char) : Int := Int.ofNat (c.toNat - 48)

/-- Digits of a Python int literal after the first: decimal digits with
single underscores allowed between digits. -/
def pyIntLoop (acc : Int) : List Char → Option Int
  | [] => some acc
  | c :: rest =>
    if isAsciiDigit c then pyIntLoop (acc * 10 + digitVal c) rest
    else if c == '_' then
      match rest with
      | [] => none
      | d :: rest2 =>
        if isAsciiDigit d then pyIntLoop (acc * 10 + digitVal d) rest2 else none
    else none

/-- The digit part of a Python int literal: non-empty, starting with a
digit. -/
def pyIntParseDigits : List Char → Option Int
  | [] => none
  | c :: rest => if isAsciiDigit c then pyIntLoop (digitVal c) rest else none

/-- Python `int(str)` on ASCII input: optional surrounding whitespace, an
optional sign, then decimal digits with single underscores allowed between
digits.  `none` models the `ValueError`. -/
def pyInt (v : List Char) : Option Int :=
  match pyStrip v with
  | '+' :: rest => pyIntParseDigits rest
  | '-' :: rest => (pyIntParseDigits rest).map (fun n => -n)
  | t => pyIntParseDigits t

/-- src lines 311-319: validation of `--default_stress`.  `some policy`
models acceptance; `none` models the fatal `SystemExit` (raised before any
input is read or output written — see src lines 321-347). -/
def parse_default_stress (v : List Char) : Option (Option Int) :=
  if pyLower v = cs "none" then some none
  else
    match pyInt v with
    | none => none
    | some n => if n = 0 ∨ n = 1 ∨ n = 2 then some (some n) else none

/-! ### JSON document model (src lines 181-229)

JSON values as produced by `json.load`: objects are insertion-ordered
association lists with pairwise-distinct keys; numbers are carried as
uninterpreted tokens (the converter never inspects them). -/

inductive Json where
  | null : Json
  | bool : Bool → Json
  | num : List Char → Json
  | str : List Char → Json
  | arr : List Json → Json
  | obj : List (List Char × Json) → Json

/-- Python `d[k]` / `k in d` on a dict: first (unique) matching key. -/
def objGet (kvs : List (List Char × Json)) (k : List Char) : Option Json :=
  match kvs with
  | [] => none
  | (k', v) :: rest => if k' = k then some v else objGet rest k

/-- Python `d[k] = v` on a dict that already holds `k` (the only use in the
source): replace the value in place, keeping the key position. -/
def objSet (kvs : List (List Char × Json)) (k : List Char) (v : Json) :
    List (List Char × Json) :=
  match kvs with
  | [] => []
  | (k', v') :: rest =>
    if k' = k then (k', v) :: rest else (k', v') :: objSet rest k v

/-- src lines 197-199: the loop body of `_convert_interval_container` —
an element that is a dict with a string `text` field has that field
replaced by the converted phone; anything else is untouched. -/
def convertInterval (ds : Option Int) (it : Json) : Json :=
  match it with
  | Json.obj kvs =>
    match objGet kvs (cs "text") with
    | some (Json.str t) =>
      Json.obj (objSet kvs (cs "text") (Json.str (ipa_phone_to_arpabet t ds)))
    | _ => Json.obj kvs
  | _ => it

/-- src lines 181-199: `_convert_interval_container` — iterate the values
of a dict or the elements of a list; other containers are left alone. -/
def convert_interval_container (container : Json) (ds : Option Int) : Json :=
  match container with
  | Json.obj kvs => Json.obj (kvs.map (fun q => (q.1, convertInterval ds q.2)))
  | Json.arr xs => Json.arr (xs.map (convertInterval ds))
  | _ => container

/-- src lines 212-214: `convert_per_file` — convert the `phones` container
if present. -/
def convert_per_file (pf : List (List Char × Json)) (ds : Option Int) :
    List (List Char × Json) :=
  match objGet pf (cs "phones") with
  | some ph => objSet pf (cs "phones") (convert_interval_container ph ds)
  | none => pf

/-- The per-value action of the filename → per-file branch (src lines
223-225): dict values are treated as per-file objects, others are left
alone. -/
def convertTopValue (ds : Option Int) (v : Json) : Json :=
  match v with
  | Json.obj pf => Json.obj (convert_per_file pf ds)
  | other => other

/-- src lines 202-229: `convert_json_obj`. -/
def convert_json_obj (doc : Json) (ds : Option Int) : Json :=
  match doc with
  | Json.obj kvs =>
    if (objGet kvs (cs "words")).isSome ∧ (objGet kvs (cs "phones")).isSome then
      Json.obj (convert_per_file kvs ds)
    else
      Json.obj (kvs.map (fun q => (q.1, convertTopValue ds q.2)))
  | other => other

/-! ### Erasure of the mutable positions

`scrubDoc` replaces every string value the converter is allowed to touch
(the string `text` field of interval elements inside a recognized `phones`
container) by a fixed canonical string, and leaves everything else alone.
`scrubDoc (convert_json_obj doc s) = scrubDoc doc` therefore says exactly
that the conversion changes at most those string values: every other key,
field, value, and the shape and ordering of the document survive. -/

def scrubInterval (it : Json) : Json :=
  match it with
  | Json.obj kvs =>
    match objGet kvs (cs "text") with
    | some (Json.str _) => Json.obj (objSet kvs (cs "text") (Json.str []))
    | _ => Json.obj kvs
  | _ => it

def scrubContainer (container : Json) : Json :=
  match container with
  | Json.obj kvs => Json.obj (kvs.map (fun q => (q.1, scrubInterval q.2)))
  | Json.arr xs => Json.arr (xs.map scrubInterval)
  | _ => container

def scrub_per_file (pf : List (List Char × Json)) : List (List Char × Json) :=
  match objGet pf (cs "phones") with
  | some ph => objSet pf (cs "phones") (scrubContainer ph)
  | none => pf

def scrubTopValue (v : Json) : Json :=
  match v with
  | Json.obj pf => Json.obj (scrub_per_file pf)
  | other => other

def scrubDoc (doc : Json) : Json :=
  match doc with
  | Json.obj kvs =>
    if (objGet kvs (cs "words")).isSome ∧ (objGet kvs (cs "phones")).isSome then
      Json.obj (scrub_per_file kvs)
    else
      Json.obj (kvs.map (fun q => (q.1, scrubTopValue q.2)))
  | other => other

/-! ### Generic list lemmas -/

theorem map_congr_fn {α β : Type} (l : List α) (f g : α → β)
    (h : ∀ a ∈ l, f a = g a) : l.map f = l.map g := by
  induction l with
  | nil => rfl
  | cons a t ih =>
    simp only [List.map_cons]
    rw [h a (List.mem_cons_self a t), ih (fun b hb => h b (List.mem_cons_of_mem a hb))]

theorem map_eq_self_of {α : Type} (l : List α) (f : α → α)
    (h : ∀ a ∈ l, f a = a) : l.map f = l := by
  have h2 := map_congr_fn l f id h
  rwa [List.map_id] at h2

theorem mem_takeWhile_pred {q : Char → Bool} {l : List Char} {a : Char}
    (h : a ∈ l.takeWhile q) : q a = true := by
  induction l with
  | nil => simp [List.takeWhile] at h
  | cons b t ih =>
    rw [List.takeWhile_cons] at h
    by_cases hb : q b = true
    · rw [if_pos hb] at h
      rcases List.mem_cons.mp h with h | h
      · rwa [h]
      · exact ih h
    · rw [if_neg hb] at h
      cases h

theorem dropWhile_structure {α : Type} (q : α → Bool) (l : List α) :
    l.dropWhile q = [] ∨ ∃ c t, l.dropWhile q = c :: t ∧ q c = false := by
  induction l with
  | nil => exact Or.inl rfl
  | cons a t ih =>
    rw [List.dropWhile_cons]
    by_cases ha : q a = true
    · rw [if_pos ha]; exact ih
    · rw [if_neg ha]
      exact Or.inr ⟨a, t, rfl, Bool.eq_false_iff.mpr ha⟩

theorem dropWhile_idem {α : Type} (q : α → Bool) (l : List α) :
    (l.dropWhile q).dropWhile q = l.dropWhile q := by
  rcases dropWhile_structure q l with h | ⟨c, t, h, hc⟩
  · rw [h]; rfl
  · rw [h, List.dropWhile_cons, if_neg (by simp [hc])]

theorem dropWhile_append_nil {α : Type} (q : α → Bool) (l₁ l₂ : List α)
    (h : l₁.dropWhile q = []) :
    (l₁ ++ l₂).dropWhile q = l₂.dropWhile q := by
  induction l₁ with
  | nil => rfl
  | cons a t ih =>
    rw [List.cons_append, List.dropWhile_cons]
    rw [List.dropWhile_cons] at h
    by_cases ha : q a = true
    · rw [if_pos ha]; rw [if_pos ha] at h; exact ih h
    · rw [if_neg ha] at h; cases h

theorem dropWhile_append_cons {α : Type} (q : α → Bool) (l₁ l₂ : List α)
    (h : l₁.dropWhile q ≠ []) :
    (l₁ ++ l₂).dropWhile q = l₁.dropWhile q ++ l₂ := by
  induction l₁ with
  | nil => exact absurd rfl h
  | cons a t ih =>
    rw [List.cons_append, List.dropWhile_cons, List.dropWhile_cons]
    rw [List.dropWhile_cons] at h
    by_cases ha : q a = true
    · rw [if_pos ha, if_pos ha]; rw [if_pos ha] at h; exact ih h
    · rw [if_neg ha, if_neg ha]; simp

theorem dropWhile_eq_self_of_all {α : Type} (q : α → Bool) (l : List α)
    (h : ∀ a ∈ l, q a = false) : l.dropWhile q = l := by
  cases l with
  | nil => rfl
  | cons a t =>
    rw [List.dropWhile_cons, if_neg (by simp [h a (List.mem_cons_self a t)])]

/-! ### Case-mapping lemmas -/

theorem case_pairs_fst_plain :
    ∀ q ∈ casePairs, isUpperAZ q.1 = false ∧ isStressDigit q.1 = false := by decide

theorem case_pairs_roundtrip :
    ∀ q ∈ casePairs, pyUpperChar q.1 = q.2 := by decide

theorem case_pairs_ascii_lower :
    ∀ q ∈ casePairs, isAsciiLetter q.1 = true →
      pyLowerChar q.2 = pyLowerChar q.1 := by decide

theorem pyUpperChar_eq_self (c : Char)
    (h : isUpperAZ c = true ∨ isStressDigit c = true) : pyUpperChar c = c := by
  unfold pyUpperChar
  cases hf : casePairs.find? (fun q => q.1 == c) with
  | none => rfl
  | some q =>
    exfalso
    have hmem : q ∈ casePairs := List.mem_of_find?_eq_some hf
    have hqc : q.1 = c := by simpa using List.find?_some hf
    rcases case_pairs_fst_plain q hmem with ⟨hu, hd⟩
    rw [hqc] at hu hd
    rcases h with h | h
    · rw [h] at hu; cases hu
    · rw [h] at hd; cases hd

/-- On `[A-Z0-2]` characters, lowercasing then uppercasing is the
identity (I lowers to i which uppers back to I, and so on). -/
theorem pyUpperChar_pyLowerChar (c : Char)
    (h : isUpperAZ c = true ∨ isStressDigit c = true) :
    pyUpperChar (pyLowerChar c) = c := by
  unfold pyLowerChar
  cases hf : casePairs.find? (fun q => q.2 == c) with
  | none => exact pyUpperChar_eq_self c h
  | some q =>
    have hmem : q ∈ casePairs := List.mem_of_find?_eq_some hf
    have hqc : q.2 = c := by simpa using List.find?_some hf
    rw [← hqc]
    exact case_pairs_roundtrip q hmem

/-- On ASCII letters and stress digits, uppercasing commutes with
lowercasing.  (This fails on dotless ı and long ſ, whose uppercase I/S
lowers to i/s — exactly the divergence behind the SIL idempotence
counterexamples.) -/
theorem ascii_lower_upper (c : Char)
    (h : isAsciiLetter c = true ∨ isStressDigit c = true) :
    pyLowerChar (pyUpperChar c) = pyLowerChar c := by
  unfold pyUpperChar
  cases hf : casePairs.find? (fun q => q.1 == c) with
  | none => rfl
  | some q =>
    have hmem : q ∈ casePairs := List.mem_of_find?_eq_some hf
    have hqc : q.1 = c := by simpa using List.find?_some hf
    rw [← hqc]
    rcases h with h | h
    · exact case_pairs_ascii_lower q hmem (hqc ▸ h)
    · exfalso
      have hd := (case_pairs_fst_plain q hmem).2
      rw [hqc] at hd
      rw [h] at hd
      cases hd

/-! ### `pyStrip` lemmas -/

theorem pyStrip_of_no_space (s : List Char)
    (h : ∀ c ∈ s, isSpaceChar c = false) : pyStrip s = s := by
  unfold pyStrip
  rw [dropWhile_eq_self_of_all _ s h]
  rw [dropWhile_eq_self_of_all _ s.reverse (fun c hc => h c (List.mem_reverse.mp hc))]
  exact List.reverse_reverse s

theorem pyStrip_idem (s : List Char) : pyStrip (pyStrip s) = pyStrip s := by
  rcases dropWhile_structure isSpaceChar s with h | ⟨c, t, h, hc⟩
  · have hs0 : pyStrip s = [] := by
      unfold pyStrip; rw [h]; rfl
    rw [hs0]
    rfl
  · by_cases h2 : t.reverse.dropWhile isSpaceChar = []
    · have hstrip : pyStrip s = [c] := by
        unfold pyStrip
        rw [h, List.reverse_cons, dropWhile_append_nil _ _ _ h2,
          List.dropWhile_cons, if_neg (by simp [hc])]
        rfl
      rw [hstrip]
      exact pyStrip_of_no_space [c]
        (by intro a ha; rcases List.mem_singleton.mp ha with rfl; exact hc)
    · have hstrip : pyStrip s = c :: (t.reverse.dropWhile isSpaceChar).reverse := by
        unfold pyStrip
        rw [h, List.reverse_cons, dropWhile_append_cons _ _ _ h2,
          List.reverse_append, List.reverse_singleton, List.singleton_append]
      rw [hstrip]
      unfold pyStrip
      rw [List.dropWhile_cons, if_neg (by simp [hc])]
      rw [List.reverse_cons, List.reverse_reverse]
      rw [dropWhile_append_cons _ _ _ (by rw [dropWhile_idem]; exact h2)]
      rw [dropWhile_idem]
      rw [List.reverse_append, List.reverse_singleton, List.singleton_append]

/-! ### `arpabetRe` lemmas -/

theorem tailOk_chars (r : List Char) (h : tailOk r = true) :
    ∀ c ∈ r, isStressDigit c = true := by
  intro c hc
  cases r with
  | nil => cases hc
  | cons d rest =>
    cases rest with
    | nil =>
      rcases List.mem_singleton.mp hc with rfl
      simpa [tailOk] using h
    | cons e rest2 => simp [tailOk] at h

theorem arpabetRe_chars (s : List Char) (h : arpabetRe s = true) :
    ∀ c ∈ s, isUpperAZ c = true ∨ isStressDigit c = true := by
  intro c hc
  rw [← List.takeWhile_append_dropWhile (p := isUpperAZ) (l := s)] at hc
  rcases List.mem_append.mp hc with hc | hc
  · exact Or.inl (mem_takeWhile_pred hc)
  · unfold arpabetRe at h
    simp only [Bool.and_eq_true] at h
    exact Or.inr (tailOk_chars _ h.2 c hc)

theorem arpabetRe_ne_nil (s : List Char) (h : arpabetRe s = true) : s ≠ [] := by
  intro hnil
  rw [hnil] at h
  exact absurd h (by decide)

theorem space_not_arpachar (c : Char) (h : isSpaceChar c = true) :
    isUpperAZ c = false ∧ isStressDigit c = false := by
  simp only [isSpaceChar, Bool.or_eq_true, beq_iff_eq] at h
  rcases h with ((((h | h) | h) | h) | h) | h <;> subst h <;> exact ⟨rfl, rfl⟩

theorem arpabetRe_no_space (s : List Char) (h : arpabetRe s = true) :
    ∀ c ∈ s, isSpaceChar c = false := by
  intro c hc
  cases hsp : isSpaceChar c with
  | false => rfl
  | true =>
    exfalso
    rcases space_not_arpachar c hsp with ⟨hu, hd⟩
    rcases arpabetRe_chars s h c hc with h1 | h1
    · rw [h1] at hu; cases hu
    · rw [h1] at hd; cases hd

theorem pyUpper_eq_self_of_arpabet (s : List Char) (h : arpabetRe s = true) :
    pyUpper s = s :=
  map_eq_self_of s pyUpperChar
    (fun c hc => pyUpperChar_eq_self c (arpabetRe_chars s h c hc))

/-- On strings matching the ARPABET regex, lowercasing then uppercasing
is the identity. -/
theorem pyUpper_pyLower_of_arpabet (r : List Char) (h : arpabetRe r = true) :
    pyUpper (pyLower r) = r := by
  unfold pyUpper pyLower
  rw [List.map_map]
  exact map_eq_self_of r _
    (fun c hc => pyUpperChar_pyLowerChar c (arpabetRe_chars r h c hc))

/-- On strings matching the ARPABET regex, a lowercase spelling of a noise
token forces the corresponding uppercase form (the converse inversion of
`SIL = pyUpper "sil"`). -/
theorem arpabet_lower_inv (r : List Char) (h : arpabetRe r = true)
    (w : List Char) (hw : pyLower r = w) : r = pyUpper w := by
  rw [← hw, pyUpper_pyLower_of_arpabet r h]

/-! ### Branch lemmas for `ipa_phone_to_arpabet` -/

theorem convert_eq_of_empty (x : List Char) (s : Option Int)
    (h : pyStrip x = []) : ipa_phone_to_arpabet x s = x := by
  unfold ipa_phone_to_arpabet
  rw [if_pos h]

theorem convert_eq_of_noise (x : List Char) (s : Option Int)
    (h : pyLower (pyStrip x) = cs "spn" ∨ pyLower (pyStrip x) = cs "sil") :
    ipa_phone_to_arpabet x s = pyLower (pyStrip x) := by
  have h0 : ¬ pyStrip x = [] := by
    intro h0
    rw [h0] at h
    rcases h with h | h <;> exact absurd h (by decide)
  unfold ipa_phone_to_arpabet
  rw [if_neg h0, if_pos h]

theorem convert_eq_of_arpa (x : List Char) (s : Option Int)
    (h1 : ¬ (pyLower (pyStrip x) = cs "spn" ∨ pyLower (pyStrip x) = cs "sil"))
    (h2 : looksLikeArpabet (pyStrip x) = true) :
    ipa_phone_to_arpabet x s =
      (if pyUpper (pyStrip x) = cs "SPN" then cs "spn" else pyUpper (pyStrip x)) := by
  have h0 : ¬ pyStrip x = [] := by
    intro h0
    rw [h0] at h2
    exact absurd h2 (by decide)
  unfold ipa_phone_to_arpabet
  rw [if_neg h0, if_neg h1, if_pos h2]

theorem convert_eq_unknown (x : List Char) (s : Option Int)
    (h0 : ¬ pyStrip x = [])
    (h1 : ¬ (pyLower (pyStrip x) = cs "spn" ∨ pyLower (pyStrip x) = cs "sil"))
    (h2 : looksLikeArpabet (pyStrip x) = false)
    (h3 : lookupBase (pyStrip x) = none) :
    ipa_phone_to_arpabet x s = pyStrip x := by
  unfold ipa_phone_to_arpabet
  rw [if_neg h0, if_neg h1, if_neg (by rw [h2]; exact Bool.false_ne_true), h3]

theorem convert_eq_mapped (x : List Char) (s : Option Int) (base : List Char)
    (h1 : ¬ (pyLower (pyStrip x) = cs "spn" ∨ pyLower (pyStrip x) = cs "sil"))
    (h2 : looksLikeArpabet (pyStrip x) = false)
    (h3 : lookupBase (pyStrip x) = some base) :
    ipa_phone_to_arpabet x s = applyStress base s := by
  have h0 : ¬ pyStrip x = [] := by
    intro h0
    rw [h0] at h3
    have hnone : lookupBase ([] : List Char) = none := by decide
    rw [hnone] at h3
    cases h3
  unfold ipa_phone_to_arpabet
  rw [if_neg h0, if_neg h1, if_neg (by rw [h2]; exact Bool.false_ne_true), h3]

theorem convert_spn (s : Option Int) :
    ipa_phone_to_arpabet (cs "spn") s = cs "spn" := by
  rw [convert_eq_of_noise (cs "spn") s (Or.inl (by decide))]
  decide

theorem convert_sil (s : Option Int) :
    ipa_phone_to_arpabet (cs "sil") s = cs "sil" := by
  rw [convert_eq_of_noise (cs "sil") s (Or.inr (by decide))]
  decide

/-! ### Fixed points of the converter -/

/-- Any string matching the ARPABET regex other than a spelling of the
noise tokens is a fixed point of the converter. -/
theorem fix_arpabet (r : List Char) (s : Option Int)
    (hre : arpabetRe r = true)
    (hspn : pyLower r ≠ cs "spn") (hsil : pyLower r ≠ cs "sil") :
    ipa_phone_to_arpabet r s = r := by
  have hstrip : pyStrip r = r := pyStrip_of_no_space r (arpabetRe_no_space r hre)
  have hupper : pyUpper r = r := pyUpper_eq_self_of_arpabet r hre
  have hlla : looksLikeArpabet r = true := by
    unfold looksLikeArpabet
    rw [hstrip, hupper, hre]
    simp
  have hnoise : ¬ (pyLower (pyStrip r) = cs "spn" ∨ pyLower (pyStrip r) = cs "sil") := by
    rw [hstrip]
    rintro (h | h)
    · exact hspn h
    · exact hsil h
  rw [convert_eq_of_arpa r s hnoise (by rw [hstrip]; exact hlla)]
  rw [hstrip, hupper]
  rw [if_neg]
  intro hEq
  apply hspn
  rw [hEq]
  decide

/-- Every value of the mapping table whose key is not a noise token gives a
converter fixed point after stress application, for each CLI stress policy. -/
theorem table_fix : ∀ kv ∈ IPA_TO_ARPABET, kv.1 ≠ cs "spn" → kv.1 ≠ cs "sil" →
    ∀ s ∈ stressOptions,
      ipa_phone_to_arpabet (applyStress kv.2 s) s = applyStress kv.2 s := by
  decide

theorem validStress_mem (s : Option Int) (hs : validStress s) :
    s ∈ stressOptions := by
  rcases hs with h | h | h | h <;> subst h <;> decide

theorem lookupBase_mem (p : List Char) (base : List Char)
    (h : lookupBase p = some base) :
    (p, base) ∈ IPA_TO_ARPABET ∨ (pyLower p, base) ∈ IPA_TO_ARPABET := by
  unfold lookupBase at h
  have tableGet_mem : ∀ k v, tableGet k = some v → (k, v) ∈ IPA_TO_ARPABET := by
    intro k v hk
    unfold tableGet at hk
    cases hf : IPA_TO_ARPABET.find? (fun q => q.1 == k) with
    | none => rw [hf] at hk; cases hk
    | some q =>
      rw [hf] at hk
      have hmem : q ∈ IPA_TO_ARPABET := List.mem_of_find?_eq_some hf
      have hqk : q.1 = k := by simpa using List.find?_some hf
      have hqv : q.2 = v := by simpa using hk
      rw [← hqk, ← hqv]
      exact hmem
  cases he : tableGet p with
  | some b =>
    rw [he] at h
    have hb : b = base := by simpa using h
    exact Or.inl (tableGet_mem p base (hb ▸ he))
  | none =>
    rw [he] at h
    exact Or.inr (tableGet_mem _ base h)

/-- Main idempotence lemma: for the stress policies the CLI can produce,
every output of the converter is a fixed point of the converter, except
when the trimmed input uppercases to SIL without lowercasing to sil
(e.g. sıl with dotless ı, or ſil with long ſ): there the first conversion
yields SIL, which the second collapses to sil. -/
theorem convert_fixed (s : Option Int) (hs : validStress s) (x : List Char)
    (hxs : pyUpper (pyStrip x) = cs "SIL" → pyLower (pyStrip x) = cs "sil") :
    ipa_phone_to_arpabet (ipa_phone_to_arpabet x s) s = ipa_phone_to_arpabet x s := by
  by_cases h0 : pyStrip x = []
  · have h1 := convert_eq_of_empty x s h0
    rw [h1]
    exact h1
  · by_cases h1 : pyLower (pyStrip x) = cs "spn" ∨ pyLower (pyStrip x) = cs "sil"
    · have e := convert_eq_of_noise x s h1
      rcases h1 with h1 | h1 <;> rw [e, h1]
      · exact convert_spn s
      · exact convert_sil s
    · by_cases h2 : looksLikeArpabet (pyStrip x) = true
      · have e := convert_eq_of_arpa x s h1 h2
        by_cases h3 : pyUpper (pyStrip x) = cs "SPN"
        · rw [e, if_pos h3]
          exact convert_spn s
        · rw [e, if_neg h3]
          have hre : arpabetRe (pyUpper (pyStrip x)) = true := by
            unfold looksLikeArpabet at h2
            rw [pyStrip_idem, Bool.or_eq_true] at h2
            rcases h2 with hA | hB
            · exact absurd (by simpa using hA) h3
            · exact hB
          apply fix_arpabet _ s hre
          · intro hEq
            have h4 := arpabet_lower_inv _ hre _ hEq
            apply h3
            rw [h4]
            decide
          · intro hEq
            have h4 := arpabet_lower_inv _ hre _ hEq
            have hSIL : pyUpper (pyStrip x) = cs "SIL" := by
              rw [h4]
              decide
            exact h1 (Or.inr (hxs hSIL))
      · have h2f : looksLikeArpabet (pyStrip x) = false := Bool.eq_false_iff.mpr h2
        cases hlb : lookupBase (pyStrip x) with
        | none =>
          rw [convert_eq_unknown x s h0 h1 h2f hlb]
          have hid := pyStrip_idem x
          have e2 := convert_eq_unknown (pyStrip x) s
            (by rw [hid]; exact h0) (by rw [hid]; exact h1)
            (by rw [hid]; exact h2f) (by rw [hid]; exact hlb)
          rw [hid] at e2
          exact e2
        | some base =>
          rw [convert_eq_mapped x s base h1 h2f hlb]
          have hsm := validStress_mem s hs
          rcases lookupBase_mem (pyStrip x) base hlb with hmem | hmem
          · refine table_fix (pyStrip x, base) hmem ?_ ?_ s hsm
            · intro hk
              have hk2 : pyStrip x = cs "spn" := hk
              apply h1
              left
              rw [hk2]
              decide
            · intro hk
              have hk2 : pyStrip x = cs "sil" := hk
              apply h1
              right
              rw [hk2]
              decide
          · refine table_fix (pyLower (pyStrip x), base) hmem ?_ ?_ s hsm
            · intro hk
              exact h1 (Or.inl hk)
            · intro hk
              exact h1 (Or.inr hk)

/-! ### Claim theorems -/

/-- C1: evaluation of the code at the claim's inputs.  The ASCII diphthongs
aj/aw/ej/ow are intercepted by the ARPABET-like check (src lines 150-152)
and returned uppercased, so their table entries (src lines 65-68) are
unreachable and the claimed equivalence with the canonical IPA forms fails
for them; only ɔj (whose first character is not an ASCII letter) maps like
its IPA counterpart ɔɪ. -/
theorem C1_ascii_diphthong_divergence :
    ipa_phone_to_arpabet (cs "aj") (some 1) = cs "AJ" ∧
    ipa_phone_to_arpabet (cs "aɪ") (some 1) = cs "AY1" ∧
    ipa_phone_to_arpabet (cs "aw") (some 1) = cs "AW" ∧
    ipa_phone_to_arpabet (cs "aʊ") (some 1) = cs "AW1" ∧
    ipa_phone_to_arpabet (cs "ej") (some 1) = cs "EJ" ∧
    ipa_phone_to_arpabet (cs "eɪ") (some 1) = cs "EY1" ∧
    ipa_phone_to_arpabet (cs "ow") (some 1) = cs "OW" ∧
    ipa_phone_to_arpabet (cs "oʊ") (some 1) = cs "OW1" ∧
    ipa_phone_to_arpabet (cs "ɔj") (some 1) = cs "OY1" ∧
    ipa_phone_to_arpabet (cs "ɔɪ") (some 1) = cs "OY1" ∧
    ipa_phone_to_arpabet (cs "aj") (some 1) ≠ ipa_phone_to_arpabet (cs "aɪ") (some 1) := by
  decide

/-- C2: evaluation of the code at the claim's inputs.  The single letter i
is intercepted by the ARPABET-like check and returned as I for every
stress policy, so the table entry i → IY (src line 81) is unreachable and
the claimed values IY1 / IY / IY0 are never produced. -/
theorem C2_default_stress_divergence :
    ipa_phone_to_arpabet (cs "i") (some 1) = cs "I" ∧
    ipa_phone_to_arpabet (cs "i") none = cs "I" ∧
    ipa_phone_to_arpabet (cs "i") (some 0) = cs "I" ∧
    ipa_phone_to_arpabet (cs "i") (some 1) ≠ cs "IY1" := by
  decide

/-- C3 counterexample: the input sil is 3 ASCII letters, but the noise
rule (src lines 146-147) fires before the ARPABET-like check, so the
converter returns it lowercase rather than uppercased as the claim
states. -/
theorem C3_counterexample_sil :
    ipa_phone_to_arpabet (cs "sil") (some 1) = cs "sil" ∧
    ipa_phone_to_arpabet (cs "sil") (some 1) ≠ cs "SIL" := by
  decide

/-- C3 (amended): for every input whose trimmed form is 1 to 3 ASCII
letters optionally followed by a digit 0/1/2 in any letter case — except
those whose lowercased trimmed form is spn or sil — convert returns the
uppercased trimmed form directly, for every stress policy.  The claim's
"ASCII letters" is stated explicitly as `hascii`, keeping non-ASCII
spellings such as ſpn (whose Python uppercase SPN is normalised to spn by
src line 152 rather than returned) outside the domain the claim words. -/
theorem C3_arpabet_shortcut (x : List Char) (s : Option Int)
    (hre : arpabetRe (pyUpper (pyStrip x)) = true)
    (hascii : ∀ c ∈ pyStrip x, isAsciiLetter c = true ∨ isStressDigit c = true)
    (h1 : pyLower (pyStrip x) ≠ cs "spn")
    (h2 : pyLower (pyStrip x) ≠ cs "sil") :
    ipa_phone_to_arpabet x s = pyUpper (pyStrip x) := by
  have hnoise : ¬ (pyLower (pyStrip x) = cs "spn" ∨ pyLower (pyStrip x) = cs "sil") := by
    rintro (h | h)
    · exact h1 h
    · exact h2 h
  have hlla : looksLikeArpabet (pyStrip x) = true := by
    unfold looksLikeArpabet
    rw [pyStrip_idem, hre]
    simp
  rw [convert_eq_of_arpa x s hnoise hlla]
  rw [if_neg]
  intro hEq
  apply h1
  have hcomm : pyLower (pyUpper (pyStrip x)) = pyLower (pyStrip x) := by
    unfold pyLower pyUpper
    rw [List.map_map]
    exact map_congr_fn _ _ _ (fun c hc => ascii_lower_upper c (hascii c hc))
  rw [← hcomm, hEq]
  decide

/-- C3 witness: convert "oW" with policy 2 returns "OW" by the ARPABET
shortcut, without stress application. -/
theorem C3_witness :
    ipa_phone_to_arpabet (cs "oW") (some 2) = cs "OW" :=
  C3_arpabet_shortcut (cs "oW") (some 2) (by decide) (by decide) (by decide)
    (by decide)

/-- C5: the table values for schwa ə and rhotic schwa ɚ carry an explicit
trailing stress digit (AH0, ER0), which is returned as-is for every stress
policy, including the policies the CLI cannot produce. -/
theorem C5_fixed_stress_override (s : Option Int) :
    ipa_phone_to_arpabet (cs "ə") s = cs "AH0" ∧
    ipa_phone_to_arpabet (cs "ɚ") s = cs "ER0" :=
  ⟨rfl, rfl⟩

/-- C6: an input whose trimmed form is non-empty, is not a noise token,
does not look like ARPABET, and is absent from the table under both exact
and lowercased lookup is returned as the trimmed original, unchanged, for
every stress policy. -/
theorem C6_unknown_passthrough (x : List Char) (s : Option Int)
    (h0 : pyStrip x ≠ [])
    (h1 : pyLower (pyStrip x) ≠ cs "spn")
    (h2 : pyLower (pyStrip x) ≠ cs "sil")
    (h3 : looksLikeArpabet (pyStrip x) = false)
    (h4 : tableGet (pyStrip x) = none)
    (h5 : tableGet (pyLower (pyStrip x)) = none) :
    ipa_phone_to_arpabet x s = pyStrip x := by
  apply convert_eq_unknown x s h0
  · rintro (h | h)
    · exact h1 h
    · exact h2 h
  · exact h3
  · unfold lookupBase
    rw [h4, h5]

/-- C6 witness: the bilabial click ʘ is unknown and passes through. -/
theorem C6_witness :
    ipa_phone_to_arpabet (cs "ʘ") (some 1) = cs "ʘ" :=
  C6_unknown_passthrough (cs "ʘ") (some 1) (by decide) (by decide) (by decide)
    (by decide) (by decide) (by decide)

/-- C7: any input whose lowercased trimmed form is spn or sil is returned
as that lowercase form, for every stress policy — never remapped and never
given a stress digit. -/
theorem C7_noise_preservation (x : List Char) (s : Option Int)
    (h : pyLower (pyStrip x) = cs "spn" ∨ pyLower (pyStrip x) = cs "sil") :
    ipa_phone_to_arpabet x s = pyLower (pyStrip x) :=
  convert_eq_of_noise x s h

/-- C7 witness: convert "spn" and "SIL" at concrete policies. -/
theorem C7_witness :
    ipa_phone_to_arpabet (cs "spn") (some 1) = cs "spn" ∧
    ipa_phone_to_arpabet (cs "SIL") (some 0) = cs "sil" :=
  ⟨C7_noise_preservation (cs "spn") (some 1) (Or.inl (by decide)),
   C7_noise_preservation (cs "SIL") (some 0) (Or.inr (by decide))⟩

/-- C8 counterexample: sıl (with dotless ı, U+0131) looks like ARPABET —
its Python uppercase is SIL — but it does not lowercase to sil, so the
noise rule does not fire and the first conversion returns SIL, which the
second conversion collapses to sil: idempotence fails on an input inside
the claim's own domain. -/
theorem C8_counterexample_dotless :
    looksLikeArpabet (cs "sıl") = true ∧
    ipa_phone_to_arpabet (cs "sıl") (some 1) = cs "SIL" ∧
    ipa_phone_to_arpabet (ipa_phone_to_arpabet (cs "sıl") (some 1)) (some 1) = cs "sil" ∧
    ipa_phone_to_arpabet (ipa_phone_to_arpabet (cs "sıl") (some 1)) (some 1) ≠
      ipa_phone_to_arpabet (cs "sıl") (some 1) := by
  decide

/-- C8 (amended): the converter is idempotent on every input that already
looks like ARPABET, for every stress policy the CLI can produce, except
the spellings of SIL that do not lowercase to sil (mixtures of s/S/ſ,
i/I/ı, l/L containing ı or ſ), whose first conversion yields SIL and
whose second yields sil. -/
theorem C8_idempotent_on_arpabet (x : List Char) (s : Option Int)
    (hx : looksLikeArpabet x = true) (hs : validStress s)
    (hxs : pyUpper (pyStrip x) = cs "SIL" → pyLower (pyStrip x) = cs "sil") :
    ipa_phone_to_arpabet (ipa_phone_to_arpabet x s) s = ipa_phone_to_arpabet x s :=
  convert_fixed s hs x hxs

/-- C8 witness at x = "ay1", policy 2. -/
theorem C8_witness :
    looksLikeArpabet (cs "ay1") = true ∧
    ipa_phone_to_arpabet (ipa_phone_to_arpabet (cs "ay1") (some 2)) (some 2) =
      ipa_phone_to_arpabet (cs "ay1") (some 2) :=
  ⟨by decide, C8_idempotent_on_arpabet (cs "ay1") (some 2) (by decide)
    (Or.inr (Or.inr (Or.inr rfl))) (by decide)⟩

/-- C9 counterexample: ſil (with long ſ, U+017F) uppercases to SIL but
does not lowercase to sil, so convert(ſil) = SIL while convert(SIL) =
sil — universal idempotence fails. -/
theorem C9_counterexample_long_s :
    ipa_phone_to_arpabet (cs "ſil") (some 1) = cs "SIL" ∧
    ipa_phone_to_arpabet (ipa_phone_to_arpabet (cs "ſil") (some 1)) (some 1) = cs "sil" ∧
    ipa_phone_to_arpabet (ipa_phone_to_arpabet (cs "ſil") (some 1)) (some 1) ≠
      ipa_phone_to_arpabet (cs "ſil") (some 1) := by
  decide

/-- C9 (amended): for every stress policy the CLI can produce, every
string is a fixed point of the converter after one conversion, except
inputs whose trimmed form uppercases to SIL without lowercasing to sil
(the dotless-ı / long-ſ spellings of sil): those yield SIL first and sil
on reconversion. -/
theorem C9_idempotent_universal (x : List Char) (s : Option Int)
    (hs : validStress s)
    (hxs : pyUpper (pyStrip x) = cs "SIL" → pyLower (pyStrip x) = cs "sil") :
    ipa_phone_to_arpabet (ipa_phone_to_arpabet x s) s = ipa_phone_to_arpabet x s :=
  convert_fixed s hs x hxs

/-- C9 witness at x = "tʃ" (a table hit), policy 1. -/
theorem C9_witness :
    ipa_phone_to_arpabet (ipa_phone_to_arpabet (cs "tʃ") (some 1)) (some 1) =
      ipa_phone_to_arpabet (cs "tʃ") (some 1) :=
  C9_idempotent_universal (cs "tʃ") (some 1) (Or.inr (Or.inr (Or.inl rfl)))
    (by decide)

/-! ### Object-update lemmas and the document frame invariant -/

theorem objGet_objSet_self (kvs : List (List Char × Json)) (k : List Char)
    (v : Json) (h : (objGet kvs k).isSome = true) :
    objGet (objSet kvs k v) k = some v := by
  induction kvs with
  | nil => simp [objGet] at h
  | cons p rest ih =>
    obtain ⟨k0, w⟩ := p
    by_cases hk : k0 = k
    · simp [objGet, objSet, hk]
    · simp only [objGet, objSet, if_neg hk] at h ⊢
      exact ih h

theorem objSet_objSet (kvs : List (List Char × Json)) (k : List Char)
    (v v' : Json) : objSet (objSet kvs k v) k v' = objSet kvs k v' := by
  induction kvs with
  | nil => rfl
  | cons p rest ih =>
    obtain ⟨k0, w⟩ := p
    by_cases hk : k0 = k
    · simp [objSet, hk]
    · simp [objSet, hk, ih]

theorem objGet_objSet_isSome (kvs : List (List Char × Json)) (k k' : List Char)
    (v : Json) :
    (objGet (objSet kvs k v) k').isSome = (objGet kvs k').isSome := by
  induction kvs with
  | nil => rfl
  | cons p rest ih =>
    obtain ⟨k0, w⟩ := p
    by_cases h0 : k0 = k
    · subst h0
      by_cases h1 : k0 = k' <;> simp [objGet, objSet, h1]
    · by_cases h1 : k0 = k'
      · subst h1
        simp [objGet, objSet, h0, ih]
      · simp [objGet, objSet, h0, h1, ih]

theorem objGet_map (kvs : List (List Char × Json)) (k : List Char)
    (f : Json → Json) :
    objGet (kvs.map (fun q => (q.1, f q.2))) k = (objGet kvs k).map f := by
  induction kvs with
  | nil => rfl
  | cons p rest ih =>
    obtain ⟨k0, w⟩ := p
    by_cases h0 : k0 = k <;> simp [objGet, h0, ih]

theorem optionMap_isSome {α β : Type} (o : Option α) (f : α → β) :
    (o.map f).isSome = o.isSome := by cases o <;> rfl

theorem scrubInterval_convertInterval (ds : Option Int) (it : Json) :
    scrubInterval (convertInterval ds it) = scrubInterval it := by
  cases it with
  | null => rfl
  | bool b => rfl
  | num r => rfl
  | str t => rfl
  | arr xs => rfl
  | obj kvs =>
    cases hg : objGet kvs (cs "text") with
    | none => simp [convertInterval, hg]
    | some w =>
      cases w with
      | null => simp [convertInterval, hg]
      | bool b => simp [convertInterval, hg]
      | num r => simp [convertInterval, hg]
      | arr xs => simp [convertInterval, hg]
      | obj kvs2 => simp [convertInterval, hg]
      | str t =>
        simp only [convertInterval, hg]
        have hset := objGet_objSet_self kvs (cs "text")
          (Json.str (ipa_phone_to_arpabet t ds)) (by rw [hg]; rfl)
        simp only [scrubInterval, hset, hg]
        rw [objSet_objSet]

theorem scrubContainer_convert (ds : Option Int) (c : Json) :
    scrubContainer (convert_interval_container c ds) = scrubContainer c := by
  cases c with
  | null => rfl
  | bool b => rfl
  | num r => rfl
  | str t => rfl
  | arr xs =>
    simp only [convert_interval_container, scrubContainer, List.map_map]
    congr 1
    apply map_congr_fn
    intro a _
    simp [Function.comp, scrubInterval_convertInterval]
  | obj kvs =>
    simp only [convert_interval_container, scrubContainer, List.map_map]
    congr 1
    apply map_congr_fn
    intro q _
    simp [Function.comp, scrubInterval_convertInterval]

theorem scrub_per_file_convert (ds : Option Int)
    (pf : List (List Char × Json)) :
    scrub_per_file (convert_per_file pf ds) = scrub_per_file pf := by
  cases hph : objGet pf (cs "phones") with
  | none => simp [convert_per_file, hph]
  | some ph =>
    simp only [convert_per_file, hph]
    have hset := objGet_objSet_self pf (cs "phones")
      (convert_interval_container ph ds) (by rw [hph]; rfl)
    simp only [scrub_per_file, hset, hph]
    rw [objSet_objSet, scrubContainer_convert]

theorem objGet_convert_per_file_isSome (pf : List (List Char × Json))
    (ds : Option Int) (k : List Char) :
    (objGet (convert_per_file pf ds) k).isSome = (objGet pf k).isSome := by
  cases hph : objGet pf (cs "phones") with
  | none => simp [convert_per_file, hph]
  | some ph => simp [convert_per_file, hph, objGet_objSet_isSome]

theorem scrubTop_convertTop (ds : Option Int) (v : Json) :
    scrubTopValue (convertTopValue ds v) = scrubTopValue v := by
  cases v with
  | null => rfl
  | bool b => rfl
  | num r => rfl
  | str t => rfl
  | arr xs => rfl
  | obj pf => simp [convertTopValue, scrubTopValue, scrub_per_file_convert]

/-- C4: the document conversion changes at most the string values of
`text` fields of interval elements inside recognized `phones` containers.
Erasing those positions on both the input and the output yields identical
documents, so every other key, field, value, and all shape and ordering
are preserved, for both recognized shapes (and, trivially, any other
top-level value). -/
theorem C4_frame_invariant (doc : Json) (ds : Option Int) :
    scrubDoc (convert_json_obj doc ds) = scrubDoc doc := by
  cases doc with
  | null => rfl
  | bool b => rfl
  | num r => rfl
  | str t => rfl
  | arr xs => rfl
  | obj kvs =>
    by_cases hc : (objGet kvs (cs "words")).isSome = true ∧
        (objGet kvs (cs "phones")).isSome = true
    · have h1 : convert_json_obj (Json.obj kvs) ds =
          Json.obj (convert_per_file kvs ds) := by
        simp only [convert_json_obj]
        rw [if_pos hc]
      rw [h1]
      have hcw : (objGet (convert_per_file kvs ds) (cs "words")).isSome = true := by
        rw [objGet_convert_per_file_isSome]; exact hc.1
      have hcp : (objGet (convert_per_file kvs ds) (cs "phones")).isSome = true := by
        rw [objGet_convert_per_file_isSome]; exact hc.2
      simp only [scrubDoc]
      rw [if_pos ⟨hcw, hcp⟩, if_pos hc, scrub_per_file_convert]
    · have h1 : convert_json_obj (Json.obj kvs) ds =
          Json.obj (kvs.map (fun q => (q.1, convertTopValue ds q.2))) := by
        simp only [convert_json_obj]
        rw [if_neg hc]
      rw [h1]
      have hc2 : ¬ ((objGet (kvs.map (fun q => (q.1, convertTopValue ds q.2)))
            (cs "words")).isSome = true ∧
          (objGet (kvs.map (fun q => (q.1, convertTopValue ds q.2)))
            (cs "phones")).isSome = true) := by
        rw [objGet_map, objGet_map, optionMap_isSome, optionMap_isSome]
        exact hc
      simp only [scrubDoc]
      rw [if_neg hc2, if_neg hc, List.map_map]
      congr 1
      apply map_congr_fn
      intro q _
      simp [Function.comp, scrubTop_convertTop]

/-! ### C10: stress-policy validation -/

/-- C10 counterexample: the value NONE is not one of 0, 1, 2, none, yet it
is accepted, because the source lowercases the value before comparing with
"none" (src line 311). -/
theorem C10_counterexample_upper_none :
    (parse_default_stress (cs "NONE")).isSome = true ∧
    cs "NONE" ≠ cs "0" ∧ cs "NONE" ≠ cs "1" ∧ cs "NONE" ≠ cs "2" ∧
    cs "NONE" ≠ cs "none" := by
  decide

/-- C10 (amended): `--default_stress` is accepted exactly when its
lowercased value is "none", or the value parses as a Python integer equal
to 0, 1, or 2; any other value raises the fatal usage error. -/
theorem C10_stress_validation (v : List Char) :
    (parse_default_stress v).isSome = true ↔
      (pyLower v = cs "none" ∨
        ∃ n, pyInt v = some n ∧ (n = 0 ∨ n = 1 ∨ n = 2)) := by
  unfold parse_default_stress
  by_cases h : pyLower v = cs "none"
  · simp [h]
  · rw [if_neg h]
    cases hp : pyInt v with
    | none => simp [h, hp]
    | some n =>
      by_cases hn : n = 0 ∨ n = 1 ∨ n = 2
      · simp [h, hp, hn]
      · simp [h, hp, hn]

/-- C10 witness: the value "2" is accepted. -/
theorem C10_witness :
    (parse_default_stress (cs "2")).isSome = true :=
  (C10_stress_validation (cs "2")).mpr
    (Or.inr ⟨2, by decide, Or.inr (Or.inr rfl)⟩)

end IpaArpa
